import Mathlib

/-!
# Verification of the sprint-calendar overlay engine

A shallow embedding of the core of `simple-sprint-planner`
(`src/app/page.tsx`, `src/components/year-view.tsx`): the sprint record,
the store mutations (`addSprint`, `deleteSprint`, `updateSprint`,
`clearAllSprints`, the import handler), the date-containment check inlined
in `getSprintForDate`, and the localStorage persistence codec
(the save and load effects).
-/

namespace SprintPlanner

/-- A JavaScript `Date` instant, modelled by its civil calendar components in
the reference timezone (UTC): `year` (the model covers the four-digit
`toISOString` range 0–9999), `month` (1–12), `day` of month (1–31) and the
milliseconds elapsed within the day (0–86399999).  Comparing JS `Date`s
compares their time values; on canonical components that order is the
lexicographic order on `(year, month, day, msOfDay)`. -/
structure JSDate where
  year : Nat
  month : Nat
  day : Nat
  msOfDay : Nat
  deriving Repr, DecidableEq

/-- Time-value order on dates: lexicographic on the civil components. -/
def JSDate.leb (a b : JSDate) : Bool :=
  if a.year ≠ b.year then a.year < b.year
  else if a.month ≠ b.month then a.month < b.month
  else if a.day ≠ b.day then a.day < b.day
  else a.msOfDay ≤ b.msOfDay

/-- `d.setHours(0, 0, 0, 0)`: reset the time-of-day parts, keeping the
calendar day. -/
def JSDate.setHours0 (d : JSDate) : JSDate := { d with msOfDay := 0 }

/-- The `Sprint` record of `src/app/page.tsx` (lines 31–38). -/
structure Sprint where
  id : String
  name : String
  startDate : JSDate
  endDate : JSDate
  color : String
  description : Option String
  deriving Repr, DecidableEq

/-- The color palette `sprintColors` of `src/app/page.tsx` (lines 41–62). -/
def sprintColors : List String :=
  [ "bg-red-200 hover:bg-red-300",
    "bg-blue-200 hover:bg-blue-300",
    "bg-green-200 hover:bg-green-300",
    "bg-yellow-200 hover:bg-yellow-300",
    "bg-purple-200 hover:bg-purple-300",
    "bg-pink-200 hover:bg-pink-300",
    "bg-indigo-200 hover:bg-indigo-300",
    "bg-orange-200 hover:bg-orange-300",
    "bg-teal-200 hover:bg-teal-300",
    "bg-cyan-200 hover:bg-cyan-300",
    "bg-lime-200 hover:bg-lime-300",
    "bg-emerald-200 hover:bg-emerald-300",
    "bg-sky-200 hover:bg-sky-300",
    "bg-fuchsia-200 hover:bg-fuchsia-300",
    "bg-amber-200 hover:bg-amber-300",
    "bg-rose-200 hover:bg-rose-300",
    "bg-violet-200 hover:bg-violet-300",
    "bg-slate-200 hover:bg-slate-300",
    "bg-neutral-200 hover:bg-neutral-300",
    "bg-stone-200 hover:bg-stone-300" ]

/-- The component state of `SprintCalendar` that the store operations read and
write: the `sprints` collection, the color-rotation cursor `colorIndex` and
the selection pointer `selectedSprintId` (`null` is `none`). -/
structure AppState where
  sprints : List Sprint
  colorIndex : Nat
  selectedSprintId : Option String
  deriving Repr, DecidableEq

/-- The argument of `addSprint`: `Omit<Sprint, "id" | "color">`. -/
structure NewSprint where
  name : String
  startDate : JSDate
  endDate : JSDate
  description : Option String
  deriving Repr, DecidableEq

/-- `addSprint` (page.tsx lines 124–133): appends `{...sprint, id, color:
sprintColors[colorIndex]}` and advances the cursor modulo the palette length.
The fresh id (`Date.now().toString()` in the source) is passed in as `newId`;
an out-of-range cursor read (`undefined` in JS) is modelled by the default
`""`. -/
def addSprint (st : AppState) (newId : String) (s : NewSprint) : AppState :=
  { st with
    sprints := st.sprints ++
      [{ id := newId, name := s.name, startDate := s.startDate,
         endDate := s.endDate, color := sprintColors.getD st.colorIndex "",
         description := s.description }],
    colorIndex := (st.colorIndex + 1) % sprintColors.length }

/-- `deleteSprint` (page.tsx lines 136–141): clears the selection when it
equals the deleted id, then filters the collection. -/
def deleteSprint (st : AppState) (id : String) : AppState :=
  { st with
    selectedSprintId :=
      if st.selectedSprintId = some id then none else st.selectedSprintId,
    sprints := st.sprints.filter (fun s => s.id ≠ id) }

/-- `updateSprint` (page.tsx lines 144–146): maps the collection, replacing
the record whose id matches. -/
def updateSprint (st : AppState) (updatedSprint : Sprint) : AppState :=
  { st with
    sprints := st.sprints.map
      (fun s => if s.id = updatedSprint.id then updatedSprint else s) }

/-- `clearAllSprints` (page.tsx lines 149–154): empties the collection,
clears the selection and resets the cursor to 0. -/
def clearAllSprints (st : AppState) : AppState :=
  { st with sprints := [], selectedSprintId := none, colorIndex := 0 }

/-- `Array.prototype.indexOf`: the index of the first occurrence, `-1` when
absent. -/
def jsIndexOf : List String → String → Int
  | [], _ => -1
  | a :: l, x =>
    if a = x then 0
    else
      let r := jsIndexOf l x
      if r = -1 then -1 else r + 1

/-- The state change of a successful import (page.tsx lines 192–207): replace
the collection, clear the selection, and recompute the cursor by folding
`if (index > maxIndex) maxIndex = index` over `sprintColors.indexOf(color)`
starting from `maxIndex = 0`, then taking `(maxIndex + 1) % length`. -/
def importSprints (st : AppState) (processedSprints : List Sprint) : AppState :=
  let maxIndex : Int := processedSprints.foldl
    (fun acc s =>
      let index := jsIndexOf sprintColors s.color
      if acc < index then index else acc) 0
  { st with
    sprints := processedSprints,
    selectedSprintId := none,
    colorIndex := ((maxIndex + 1) % (sprintColors.length : Int)).toNat }

/-- The date-containment check inlined in `getSprintForDate`
(page.tsx lines 240–252): normalize the probe date and both sprint bounds
with `setHours(0,0,0,0)` and test `checkDate >= startDate && checkDate <=
endDate`. -/
def containsDate (s : Sprint) (d : JSDate) : Bool :=
  JSDate.leb s.startDate.setHours0 d.setHours0 &&
    JSDate.leb d.setHours0 s.endDate.setHours0

/-- `getSprintForDate` (page.tsx lines 220–253, identical in
year-view.tsx lines 30–63).  `if (selectedSprintId)` is JS truthiness:
both `null` and the empty string skip the selected-sprint branch. -/
def getSprintForDate (sprints : List Sprint) (selectedSprintId : Option String)
    (date : JSDate) : Option Sprint :=
  match selectedSprintId with
  | some sid =>
    if sid ≠ "" then
      match sprints.find? (fun s => s.id == sid) with
      | some selectedSprint =>
        if containsDate selectedSprint date then some selectedSprint
        else sprints.find? (fun s => containsDate s date)
      | none => sprints.find? (fun s => containsDate s date)
    else sprints.find? (fun s => containsDate s date)
  | none => sprints.find? (fun s => containsDate s date)

/-! ## Concrete instances used by witnesses and counterexamples -/

/-- The initial component state: no sprints, cursor 0, no selection. -/
def emptyState : AppState :=
  { sprints := [], colorIndex := 0, selectedSprintId := none }

/-- A sprint covering 2024-01-01 … 2024-01-10. -/
def sprintA : Sprint :=
  { id := "a", name := "Sprint A", startDate := ⟨2024, 1, 1, 0⟩,
    endDate := ⟨2024, 1, 10, 0⟩, color := "bg-green-200 hover:bg-green-300",
    description := some "first" }

/-- A sprint covering 2024-01-05 … 2024-01-15, overlapping `sprintA`, with no
description. -/
def sprintB : Sprint :=
  { id := "b", name := "Sprint B", startDate := ⟨2024, 1, 5, 0⟩,
    endDate := ⟨2024, 1, 15, 0⟩, color := "bg-red-200 hover:bg-red-300",
    description := none }

/-- 2024-01-07, a day both `sprintA` and `sprintB` cover. -/
def jan7 : JSDate := ⟨2024, 1, 7, 0⟩

/-- A state holding the two overlapping sprints with `sprintA` selected. -/
def twoState : AppState :=
  { sprints := [sprintA, sprintB], colorIndex := 2,
    selectedSprintId := some "a" }

/-! ## Helper lemmas -/

/-- Whatever branch produced it, a sprint returned by `getSprintForDate` is a
member of the collection and contains the probed date. -/
theorem getSprintForDate_mem {sprints : List Sprint} {sel : Option String}
    {d : JSDate} {s : Sprint} (h : getSprintForDate sprints sel d = some s) :
    s ∈ sprints ∧ containsDate s d = true := by
  have hfind : ∀ {t : Sprint},
      sprints.find? (fun x => containsDate x d) = some t →
      t ∈ sprints ∧ containsDate t d = true :=
    fun ht => ⟨List.mem_of_find?_eq_some ht, by simpa using List.find?_some ht⟩
  unfold getSprintForDate at h
  repeat' split at h
  all_goals try exact hfind h
  all_goals
    cases h
    rename_i heq hc
    exact ⟨List.mem_of_find?_eq_some heq, hc⟩

/-! ## C8: clear-all -/

/-- C8: for every prior state, `clearAllSprints` empties the sprint
collection, clears the selection, and resets the color cursor to 0 —
whatever the cursor's prior value. -/
theorem clearAllSprints_resets (st : AppState) :
    clearAllSprints st =
      { sprints := [], colorIndex := 0, selectedSprintId := none } := rfl

/-! ## C6: delete -/

/-- C6: `deleteSprint` removes the sprint with the given id, leaves the
collection unchanged (not an error) when no sprint has that id, clears the
selection exactly when the deleted id equals `selectedSprintId`, and
afterwards owner resolution only ever returns a covering sprint whose id
differs from the deleted one (or none). -/
theorem deleteSprint_spec (st : AppState) (id : String) :
    (deleteSprint st id).sprints = st.sprints.filter (fun s => s.id ≠ id) ∧
    ((∀ s ∈ st.sprints, s.id ≠ id) →
      (deleteSprint st id).sprints = st.sprints) ∧
    (deleteSprint st id).selectedSprintId =
      (if st.selectedSprintId = some id then none else st.selectedSprintId) ∧
    (∀ (d : JSDate) (s : Sprint),
      getSprintForDate (deleteSprint st id).sprints
          (deleteSprint st id).selectedSprintId d = some s →
      s.id ≠ id ∧ containsDate s d = true) := by
  refine ⟨rfl, ?_, rfl, ?_⟩
  · intro h
    show st.sprints.filter (fun s => s.id ≠ id) = st.sprints
    exact List.filter_eq_self.mpr fun s hs => by
      simpa using h s hs
  · intro d s hres
    obtain ⟨hmem, hcont⟩ := getSprintForDate_mem hres
    have : s ∈ st.sprints.filter (fun s => s.id ≠ id) := hmem
    have := List.of_mem_filter this
    exact ⟨by simpa using this, hcont⟩

/-! ## C10: frame effects of the single-record mutations -/

/-- C10: `addSprint` leaves every previously stored record and their order
unchanged (the new sprint is appended) and does not touch the selection;
`updateSprint` leaves every record whose id is not the target unchanged, in
order, and does not touch the selection; `deleteSprint` leaves every record
whose id is not the target unchanged, in order, and leaves the selection
unchanged when the deleted id differs from it.  None of the three changes the
color cursor except `addSprint`'s advance. -/
theorem mutation_frame (st : AppState) (newId : String) (f : NewSprint)
    (u : Sprint) (did : String) :
    (addSprint st newId f).sprints.take st.sprints.length = st.sprints ∧
    (addSprint st newId f).selectedSprintId = st.selectedSprintId ∧
    (updateSprint st u).sprints.filter (fun s => s.id ≠ u.id) =
      st.sprints.filter (fun s => s.id ≠ u.id) ∧
    (updateSprint st u).selectedSprintId = st.selectedSprintId ∧
    (updateSprint st u).colorIndex = st.colorIndex ∧
    (deleteSprint st did).sprints = st.sprints.filter (fun s => s.id ≠ did) ∧
    (deleteSprint st did).colorIndex = st.colorIndex ∧
    (st.selectedSprintId ≠ some did →
      (deleteSprint st did).selectedSprintId = st.selectedSprintId) := by
  refine ⟨List.take_left _ _, rfl, ?_, rfl, rfl, rfl, rfl, ?_⟩
  · show List.filter _ (st.sprints.map _) = _
    induction st.sprints with
    | nil => rfl
    | cons a l ih =>
      simp only [ne_eq, decide_not] at ih ⊢
      by_cases h : a.id = u.id <;> simp [List.filter_cons, h, ih]
  · intro h
    show (if st.selectedSprintId = some did then none
          else st.selectedSprintId) = st.selectedSprintId
    rw [if_neg h]

/-- Closed instance of `mutation_frame` (the delete-selection part needs its
hypothesis discharged): deleting the unselected `"b"` from `twoState` keeps
the selection `"a"`. -/
theorem mutation_frame_witness :
    (addSprint twoState "9" ⟨"N", ⟨2024, 2, 1, 0⟩, ⟨2024, 2, 2, 0⟩, none⟩).sprints.take
        twoState.sprints.length = twoState.sprints ∧
    (deleteSprint twoState "b").selectedSprintId = twoState.selectedSprintId := by
  have h := mutation_frame twoState "9" ⟨"N", ⟨2024, 2, 1, 0⟩, ⟨2024, 2, 2, 0⟩, none⟩
    sprintA "b"
  exact ⟨h.1, h.2.2.2.2.2.2.2 (by decide)⟩

/-! ## C1: owner resolution -/

/-- The owner-resolution rule exactly as the specification words it: when
`selectedSprintId` is set (an `Option` holding any id, the empty string
included) and refers to an existing sprint that contains the date, that
sprint wins; otherwise the first containing sprint in store order; otherwise
none. -/
def resolveOwnerSpec (sprints : List Sprint) (selectedSprintId : Option String)
    (date : JSDate) : Option Sprint :=
  match selectedSprintId with
  | some sid =>
    match sprints.find? (fun s => s.id == sid) with
    | some t =>
      if containsDate t date then some t
      else sprints.find? (fun s => containsDate s date)
    | none => sprints.find? (fun s => containsDate s date)
  | none => sprints.find? (fun s => containsDate s date)

/-- A sprint whose id is the empty string, covering 2024-01-05 … 2024-01-15. -/
def sprintE : Sprint :=
  { id := "", name := "Sprint E", startDate := ⟨2024, 1, 5, 0⟩,
    endDate := ⟨2024, 1, 15, 0⟩, color := "bg-blue-200 hover:bg-blue-300",
    description := none }

/-- C1 counterexample: with the selection set to the empty-string id of the
existing sprint `sprintE`, which contains Jan 7, the code returns the earlier
overlapping sprint `sprintA` instead of the selected sprint — JS truthiness
of `if (selectedSprintId)` treats `""` as no selection. -/
theorem getSprintForDate_empty_id_cex :
    getSprintForDate [sprintA, sprintE] (some "") jan7 = some sprintA ∧
    resolveOwnerSpec [sprintA, sprintE] (some "") jan7 = some sprintE ∧
    containsDate sprintE jan7 = true ∧ sprintA ≠ sprintE := by decide

/-- C1 (amended): whenever the selection is not the empty string — in
particular whenever it is unset or holds a genuine id — `getSprintForDate`
computes exactly the spec's owner-resolution rule. -/
theorem getSprintForDate_eq_resolveOwnerSpec (sprints : List Sprint)
    (sel : Option String) (d : JSDate) (h : sel ≠ some "") :
    getSprintForDate sprints sel d = resolveOwnerSpec sprints sel d := by
  rcases sel with _ | sid
  · rfl
  · have hs : sid ≠ "" := fun e => h (by rw [e])
    show (if sid ≠ "" then resolveOwnerSpec sprints (some sid) d
          else sprints.find? (fun s => containsDate s d)) =
        resolveOwnerSpec sprints (some sid) d
    rw [if_pos hs]

/-- Closed instance of `getSprintForDate_eq_resolveOwnerSpec` at the selected
overlapping sprint `"b"` of `twoState` on Jan 7. -/
theorem getSprintForDate_eq_resolveOwnerSpec_witness :
    getSprintForDate twoState.sprints (some "b") jan7 =
      resolveOwnerSpec twoState.sprints (some "b") jan7 :=
  getSprintForDate_eq_resolveOwnerSpec twoState.sprints (some "b") jan7
    (by decide)

/-! ## C3: import cursor recompute -/

/-- The palette index of a recognized color token, as the spec words it:
`none` for an unrecognized/custom color. -/
def paletteIndex : List String → String → Option Nat
  | [], _ => none
  | a :: l, x => if a = x then some 0 else (paletteIndex l x).map (· + 1)

/-- One step of the spec's highest-recognized-index scan: an unrecognized
color contributes no index. -/
def specMaxStep (acc : Nat) (s : Sprint) : Nat :=
  match paletteIndex sprintColors s.color with
  | some i => max acc i
  | none => acc

/-- The spec's highest recognized palette index of an imported list, floored
at 0 by the scan's start value. -/
def specMaxIndex (l : List Sprint) : Nat := l.foldl specMaxStep 0

/-- `Array.prototype.indexOf` against the recognized-index view. -/
theorem jsIndexOf_eq_paletteIndex (l : List String) (x : String) :
    jsIndexOf l x = (match paletteIndex l x with
      | some i => (i : Int)
      | none => -1) := by
  induction l with
  | nil => rfl
  | cons a t ih =>
    by_cases h : a = x
    · simp [jsIndexOf, paletteIndex, h]
    · simp only [jsIndexOf, paletteIndex, if_neg h, ih]
      cases hp : paletteIndex t x <;> simp [hp]

/-- The code's `Int` fold with start 0 computes the spec's `Nat` max fold. -/
theorem foldl_maxIndex (l : List Sprint) : ∀ acc : Nat,
    l.foldl (fun acc s =>
      let index := jsIndexOf sprintColors s.color
      if acc < index then index else acc) (acc : Int) =
      ((l.foldl specMaxStep acc : Nat) : Int) := by
  have step : ∀ (acc : Nat) (s : Sprint),
      (if (acc : Int) < jsIndexOf sprintColors s.color
        then jsIndexOf sprintColors s.color else (acc : Int)) =
        ((specMaxStep acc s : Nat) : Int) := by
    intro acc s
    rw [jsIndexOf_eq_paletteIndex]
    unfold specMaxStep
    cases paletteIndex sprintColors s.color with
    | none =>
      show (if (acc : Int) < -1 then (-1 : Int) else (acc : Int)) =
        ((acc : Nat) : Int)
      rw [if_neg (by omega)]
    | some i =>
      show (if (acc : Int) < (i : Nat) then ((i : Nat) : Int)
            else (acc : Int)) = ((max acc i : Nat) : Int)
      rcases Nat.lt_or_ge acc i with h | h
      · rw [if_pos (by exact_mod_cast h), Nat.max_eq_right h.le]
      · rw [if_neg (by exact_mod_cast Nat.not_lt.mpr h), Nat.max_eq_left h]
  induction l with
  | nil => intro acc; rfl
  | cons a t ih =>
    intro acc
    simp only [List.foldl_cons]
    rw [step acc a]
    exact ih (specMaxStep acc a)

/-- C3 counterexample: importing a single sprint whose color is not a palette
token sets the cursor to 1, not 0 — the scan starts `maxIndex` at 0, so a
list with no recognized color still yields `(0 + 1) mod 20`. -/
theorem importSprints_no_color_cex :
    (importSprints emptyState
      [{ id := "u", name := "U", startDate := ⟨2024, 3, 1, 0⟩,
         endDate := ⟨2024, 3, 2, 0⟩, color := "custom",
         description := none }]).colorIndex = 1 ∧
    (importSprints emptyState
      [{ id := "u", name := "U", startDate := ⟨2024, 3, 1, 0⟩,
         endDate := ⟨2024, 3, 2, 0⟩, color := "custom",
         description := none }]).colorIndex ≠ 0 := by decide

/-- C3 (amended): the import operation replaces the collection, clears the
selection, and sets the cursor to `(m + 1) mod 20` where `m` is the maximum
of 0 and the highest recognized palette index among the imported sprints
(unrecognized colors contribute no index).  A list whose sprints use palette
colors at indices {2, 7, 1} therefore yields cursor 8; a list with no
recognized color yields cursor 1, not 0. -/
theorem importSprints_cursor (st : AppState) (l : List Sprint) :
    (importSprints st l).colorIndex = (specMaxIndex l + 1) % 20 ∧
    (importSprints st l).sprints = l ∧
    (importSprints st l).selectedSprintId = none := by
  refine ⟨?_, rfl, rfl⟩
  show ((l.foldl (fun acc s =>
      let index := jsIndexOf sprintColors s.color
      if acc < index then index else acc) (0 : Int) + 1) %
        (sprintColors.length : Int)).toNat = (specMaxIndex l + 1) % 20
  rw [show (0 : Int) = ((0 : Nat) : Int) by norm_num, foldl_maxIndex l 0,
    show sprintColors.length = 20 from rfl]
  unfold specMaxIndex
  omega

/-! ## C4: create-time validation -/

/-- An input with an empty name and an inverted date range. -/
def invalidNew : NewSprint :=
  { name := "", startDate := ⟨2024, 1, 10, 0⟩, endDate := ⟨2024, 1, 1, 0⟩,
    description := none }

/-- C4 counterexample: `addSprint` performs no validation.  On an input whose
name is empty and whose start date is after its end date, the sprint is
appended anyway and the color cursor advances — the store does not stay
unchanged and no error is raised. -/
theorem addSprint_invalid_cex :
    invalidNew.name = "" ∧
    JSDate.leb invalidNew.startDate invalidNew.endDate = false ∧
    (addSprint emptyState "1" invalidNew).sprints.length = 1 ∧
    (addSprint emptyState "1" invalidNew).colorIndex = 1 := by decide

/-- C4 (amended): for every input with an empty name or with
`startDate > endDate`, `addSprint` still appends the sprint (with the current
palette color) and advances the cursor: the code has no create-time
validation and no `ValidationError`. -/
theorem addSprint_no_validation (st : AppState) (newId : String)
    (f : NewSprint)
    (h : f.name = "" ∨ JSDate.leb f.startDate f.endDate = false) :
    (addSprint st newId f).sprints =
      st.sprints ++
        [{ id := newId, name := f.name, startDate := f.startDate,
           endDate := f.endDate, color := sprintColors.getD st.colorIndex "",
           description := f.description }] ∧
    (addSprint st newId f).colorIndex = (st.colorIndex + 1) % 20 :=
  ⟨rfl, rfl⟩

/-- Closed instance of `addSprint_no_validation` at `invalidNew`. -/
theorem addSprint_no_validation_witness :
    (addSprint emptyState "1" invalidNew).sprints =
      emptyState.sprints ++
        [{ id := "1", name := invalidNew.name,
           startDate := invalidNew.startDate, endDate := invalidNew.endDate,
           color := sprintColors.getD emptyState.colorIndex "",
           description := invalidNew.description }] ∧
    (addSprint emptyState "1" invalidNew).colorIndex =
      (emptyState.colorIndex + 1) % 20 :=
  addSprint_no_validation emptyState "1" invalidNew (Or.inl rfl)

/-! ## C5: update -/

/-- A sprint whose id matches nothing in `twoState`. -/
def orphanSprint : Sprint :=
  { id := "zz", name := "Z", startDate := ⟨2024, 2, 1, 0⟩,
    endDate := ⟨2024, 2, 5, 0⟩, color := "x", description := none }

/-- C5 counterexample: updating with a record whose id matches no stored
sprint leaves the store exactly unchanged and returns normally — there is no
`NotFoundError` in the code. -/
theorem updateSprint_unknown_id_cex :
    updateSprint twoState orphanSprint = twoState ∧
    (∀ s ∈ twoState.sprints, s.id ≠ orphanSprint.id) := by decide

/-- C5 (amended): `updateSprint` replaces the stored record whose id equals
the argument's id (leaving the rest in place), and when no stored sprint has
that id it is a silent no-op: the state is returned unchanged and no error is
surfaced. -/
theorem updateSprint_replace_or_noop (st : AppState) (u : Sprint) :
    (updateSprint st u).sprints =
      st.sprints.map (fun s => if s.id = u.id then u else s) ∧
    ((∀ s ∈ st.sprints, s.id ≠ u.id) → updateSprint st u = st) := by
  refine ⟨rfl, fun h => ?_⟩
  have hmap : ∀ (l : List Sprint), (∀ s ∈ l, s.id ≠ u.id) →
      l.map (fun s => if s.id = u.id then u else s) = l := by
    intro l
    induction l with
    | nil => intro _; rfl
    | cons a t ih =>
      intro hl
      simp only [List.map_cons]
      rw [if_neg (hl a (by simp)), ih (fun s hs => hl s (by simp [hs]))]
  show { st with sprints :=
    st.sprints.map (fun s => if s.id = u.id then u else s) } = st
  rw [hmap st.sprints h]

/-! ## C7: day-granularity containment -/

/-- Comparison at day granularity, as the spec words it: the normalized
(midnight) instants are ordered exactly by the calendar-day triple. -/
def dayLe (a b : JSDate) : Prop :=
  a.year < b.year ∨
    (a.year = b.year ∧
      (a.month < b.month ∨ (a.month = b.month ∧ a.day ≤ b.day)))

instance (a b : JSDate) : Decidable (dayLe a b) := by
  unfold dayLe; infer_instance

theorem dayLe_refl (a : JSDate) : dayLe a a :=
  Or.inr ⟨rfl, Or.inr ⟨rfl, le_refl _⟩⟩

/-- Comparing two `setHours(0,0,0,0)`-normalized dates is exactly the
day-granularity order on the original dates. -/
theorem leb_setHours0_iff (a b : JSDate) :
    JSDate.leb a.setHours0 b.setHours0 = true ↔ dayLe a b := by
  simp only [JSDate.leb, JSDate.setHours0, dayLe]
  by_cases h1 : a.year = b.year <;> by_cases h2 : a.month = b.month <;>
    by_cases h3 : a.day = b.day <;> simp [h1, h2, h3] <;> omega

/-- C7: `containsDate` holds iff the normalized start is ≤ the normalized
date ≤ the normalized end (day-granularity comparison); consequently, for a
sprint satisfying the data-model invariant `startDate <= endDate` (at day
granularity), both endpoints are contained; and the result never changes
when any time-of-day component is put on the probe date or either bound. -/
theorem containsDate_spec (s : Sprint) (d : JSDate) :
    (containsDate s d = true ↔ dayLe s.startDate d ∧ dayLe d s.endDate) ∧
    (dayLe s.startDate s.endDate →
      containsDate s s.startDate = true ∧ containsDate s s.endDate = true) ∧
    (∀ t1 t2 t3 : Nat,
      containsDate
        { s with startDate := { s.startDate with msOfDay := t1 },
                 endDate := { s.endDate with msOfDay := t2 } }
        { d with msOfDay := t3 } = containsDate s d) := by
  have hiff : ∀ (x : Sprint) (y : JSDate),
      containsDate x y = true ↔ dayLe x.startDate y ∧ dayLe y x.endDate := by
    intro x y
    simp [containsDate, Bool.and_eq_true, leb_setHours0_iff]
  refine ⟨hiff s d, fun h => ?_, fun t1 t2 t3 => rfl⟩
  exact ⟨(hiff s s.startDate).mpr ⟨dayLe_refl _, h⟩,
    (hiff s s.endDate).mpr ⟨h, dayLe_refl _⟩⟩

/-! ## C9: color rotation -/

/-- A sequence of create operations: each element carries the fresh id the
environment would supply and the dialog's fields. -/
def addMany (st : AppState) (xs : List (String × NewSprint)) : AppState :=
  xs.foldl (fun s p => addSprint s p.1 p.2) st

theorem addMany_cons (st : AppState) (x : String × NewSprint)
    (xs : List (String × NewSprint)) :
    addMany st (x :: xs) = addMany (addSprint st x.1 x.2) xs := rfl

/-- The colors a run of creates assigns: the `k`-th created sprint gets the
palette token at `(cursor + k) mod 20`. -/
theorem addMany_colors (xs : List (String × NewSprint)) :
    ∀ st : AppState, st.colorIndex < 20 →
      (addMany st xs).sprints.map (fun s => s.color) =
        st.sprints.map (fun s => s.color) ++
          (List.range xs.length).map
            (fun k => sprintColors.getD ((st.colorIndex + k) % 20) "") := by
  induction xs with
  | nil => intro st _; simp [addMany]
  | cons x xs ih =>
    intro st h
    have hcur : (addSprint st x.1 x.2).colorIndex = (st.colorIndex + 1) % 20 :=
      rfl
    rw [addMany_cons, ih _ (by rw [hcur]; exact Nat.mod_lt _ (by norm_num))]
    simp only [List.length_cons]
    rw [List.range_succ_eq_map, List.map_cons, hcur]
    show (st.sprints ++ [_]).map _ ++ _ = _
    rw [List.map_append]
    simp only [List.map_map, List.map_cons, List.map_nil,
      List.append_assoc, List.singleton_append]
    refine congrArg (st.sprints.map (fun s => s.color) ++ ·) ?_
    rw [show (st.colorIndex + 0) % 20 = st.colorIndex by omega]
    refine congrArg (sprintColors.getD st.colorIndex "" :: ·) ?_
    apply List.map_congr_left
    intro k _
    show sprintColors.getD (((st.colorIndex + 1) % 20 + k) % 20) "" =
      sprintColors.getD ((st.colorIndex + Nat.succ k) % 20) ""
    congr 1
    omega

/-- C9: each create assigns the palette token at the current cursor and
advances the cursor to `(c + 1) mod 20` (the palette has 20 tokens); hence a
run of 21 creates from cursor 0 gives the 21st sprint the same color token as
the 1st. -/
theorem addSprint_color_rotation (st : AppState) (newId : String)
    (f : NewSprint) (h : st.colorIndex < 20) :
    ((addSprint st newId f).sprints.map (fun s => s.color) =
      st.sprints.map (fun s => s.color) ++
        [sprintColors.getD st.colorIndex ""]) ∧
    (addSprint st newId f).colorIndex = (st.colorIndex + 1) % 20 ∧
    (∀ xs : List (String × NewSprint), xs.length = 21 → st.colorIndex = 0 →
      ((addMany st xs).sprints.map (fun s => s.color)).getD
          (st.sprints.length + 20) "" =
        ((addMany st xs).sprints.map (fun s => s.color)).getD
          st.sprints.length "") := by
  refine ⟨by simp [addSprint], rfl, fun xs hlen h0 => ?_⟩
  rw [addMany_colors xs st h, hlen, h0]
  have hmaplen : (st.sprints.map (fun s => s.color)).length =
      st.sprints.length := List.length_map _ _
  rw [List.getD_append_right _ _ _ _ (by omega),
    List.getD_append_right _ _ _ _ (by omega)]
  rw [hmaplen, show st.sprints.length + 20 - st.sprints.length = 20 by omega,
    Nat.sub_self]
  decide

/-- Closed instance of `addSprint_color_rotation`: from the empty store a run
of 21 creates repeats the first color at position 20. -/
theorem addSprint_color_rotation_witness :
    ((addSprint emptyState "1" invalidNew).sprints.map (fun s => s.color) =
      emptyState.sprints.map (fun s => s.color) ++
        [sprintColors.getD emptyState.colorIndex ""]) ∧
    ((addMany emptyState
        (List.replicate 21 ("1", invalidNew))).sprints.map
          (fun s => s.color)).getD (emptyState.sprints.length + 20) "" =
      ((addMany emptyState
        (List.replicate 21 ("1", invalidNew))).sprints.map
          (fun s => s.color)).getD emptyState.sprints.length "" := by
  have h := addSprint_color_rotation emptyState "1" invalidNew (by decide)
  exact ⟨h.1, h.2.2 (List.replicate 21 ("1", invalidNew)) (by decide) rfl⟩

/-! ## C2: the persistence codec

The save effect (page.tsx lines 106–121) stringifies the envelope
`{sprints, colorIndex}` with a replacer that turns `startDate`/`endDate`
into `toISOString()` text; the load effect (lines 84–103) parses it back and
rebuilds the dates with `new Date(string)`.  The JSON tree is modelled
structurally (`SavedSprint`/`SavedData`); the date text is modelled in
full. -/

/-- The decimal digit character of `n mod 10`. -/
def d1 (n : Nat) : Char := Char.ofNat (48 + n % 10)

/-- Two-digit zero-padded decimal (for values below 100). -/
def pad2 (n : Nat) : List Char := [d1 (n / 10), d1 n]

/-- Three-digit zero-padded decimal (for values below 1000). -/
def pad3 (n : Nat) : List Char := [d1 (n / 100), d1 (n / 10), d1 n]

/-- Four-digit zero-padded decimal (for values below 10000). -/
def pad4 (n : Nat) : List Char := [d1 (n / 1000), d1 (n / 100), d1 (n / 10), d1 n]

/-- `Date.prototype.toISOString` for the modelled range (years 0–9999):
the 24-character UTC form `YYYY-MM-DDTHH:mm:ss.sssZ`, a lossless,
locale-independent, timezone-stable encoding. -/
def toISOString (d : JSDate) : String :=
  ⟨pad4 d.year ++ '-' :: pad2 d.month ++ '-' :: pad2 d.day ++
    'T' :: pad2 (d.msOfDay / 3600000) ++
    ':' :: pad2 (d.msOfDay % 3600000 / 60000) ++
    ':' :: pad2 (d.msOfDay % 60000 / 1000) ++
    '.' :: pad3 (d.msOfDay % 1000) ++ ['Z']⟩

/-- The numeric value of a decimal digit character. -/
def digitVal (c : Char) : Nat := c.toNat - 48

/-- `new Date(string)` on the 24-character UTC form `toISOString` produces
(ECMA-262 requires the constructor to invert `toISOString` on this format);
a string of any other shape gives the invalid date, modelled as `none`. -/
def parseISODate (s : String) : Option JSDate :=
  match s.data with
  | [y1, y2, y3, y4, c1, m1, m2, c2, dd1, dd2, c3, hh1, hh2, c4, mi1, mi2,
     c5, ss1, ss2, c6, f1, f2, f3, c7] =>
    if c1 = '-' ∧ c2 = '-' ∧ c3 = 'T' ∧ c4 = ':' ∧ c5 = ':' ∧ c6 = '.' ∧
        c7 = 'Z' then
      some { year := 1000 * digitVal y1 + 100 * digitVal y2 +
               10 * digitVal y3 + digitVal y4,
             month := 10 * digitVal m1 + digitVal m2,
             day := 10 * digitVal dd1 + digitVal dd2,
             msOfDay := (10 * digitVal hh1 + digitVal hh2) * 3600000 +
               (10 * digitVal mi1 + digitVal mi2) * 60000 +
               (10 * digitVal ss1 + digitVal ss2) * 1000 +
               (100 * digitVal f1 + 10 * digitVal f2 + digitVal f3) }
    else none
  | _ => none

/-- A `JSDate` whose components are a canonical calendar instant of the
modelled range. -/
def JSDate.valid (d : JSDate) : Prop :=
  d.year < 10000 ∧ 0 < d.month ∧ d.month ≤ 12 ∧ 0 < d.day ∧ d.day ≤ 31 ∧
    d.msOfDay < 86400000

instance (d : JSDate) : Decidable d.valid := by
  unfold JSDate.valid; infer_instance

/-- The serialized form of one sprint: both date fields are ISO text. -/
structure SavedSprint where
  id : String
  name : String
  startDate : String
  endDate : String
  color : String
  description : Option String
  deriving Repr, DecidableEq

/-- The persisted envelope `{ sprints, colorIndex }`. -/
structure SavedData where
  sprints : List SavedSprint
  colorIndex : Nat
  deriving Repr, DecidableEq

/-- The replacer of the save effect applied to one sprint. -/
def saveSprint (s : Sprint) : SavedSprint :=
  { id := s.id, name := s.name, startDate := toISOString s.startDate,
    endDate := toISOString s.endDate, color := s.color,
    description := s.description }

/-- The save effect: the envelope with every date field encoded by
`toISOString`. -/
def saveData (sprints : List Sprint) (colorIndex : Nat) : SavedData :=
  { sprints := sprints.map saveSprint, colorIndex := colorIndex }

/-- The load effect on one saved sprint: `{...sprint, startDate:
new Date(...), endDate: new Date(...)}`; an unreadable date string (JS's
invalid date) is `none`. -/
def loadSprint (r : SavedSprint) : Option Sprint := do
  let sd ← parseISODate r.startDate
  let ed ← parseISODate r.endDate
  pure { id := r.id, name := r.name, startDate := sd, endDate := ed,
         color := r.color, description := r.description }

/-- The load effect on the envelope.  (`savedColorIndex || 0` in the source
is the identity on natural cursor values: `0 || 0` is `0`.) -/
def loadData (d : SavedData) : Option (List Sprint × Nat) := do
  let sp ← d.sprints.mapM loadSprint
  pure (sp, d.colorIndex)

theorem toNat_d1 (n : Nat) : (d1 n).toNat = 48 + n % 10 := by
  have h : n % 10 < 10 := Nat.mod_lt _ (by norm_num)
  have key : ∀ m, m < 10 → (Char.ofNat (48 + m)).toNat = 48 + m := by
    intro m hm
    interval_cases m <;> decide
  exact key _ h

theorem digitVal_d1 (n : Nat) : digitVal (d1 n) = n % 10 := by
  unfold digitVal
  rw [toNat_d1]
  omega

/-- `parseISODate` on a well-shaped 24-character string reads the four
fields back. -/
theorem parseISODate_cons (y1 y2 y3 y4 m1 m2 dd1 dd2 hh1 hh2 mi1 mi2 ss1 ss2
    f1 f2 f3 : Char) :
    parseISODate ⟨[y1, y2, y3, y4, '-', m1, m2, '-', dd1, dd2, 'T', hh1, hh2,
      ':', mi1, mi2, ':', ss1, ss2, '.', f1, f2, f3, 'Z']⟩ =
    some { year := 1000 * digitVal y1 + 100 * digitVal y2 +
             10 * digitVal y3 + digitVal y4,
           month := 10 * digitVal m1 + digitVal m2,
           day := 10 * digitVal dd1 + digitVal dd2,
           msOfDay := (10 * digitVal hh1 + digitVal hh2) * 3600000 +
             (10 * digitVal mi1 + digitVal mi2) * 60000 +
             (10 * digitVal ss1 + digitVal ss2) * 1000 +
             (100 * digitVal f1 + 10 * digitVal f2 + digitVal f3) } := rfl

/-- Decoding inverts encoding exactly on every canonical date of the
modelled range. -/
theorem parseISODate_toISOString (d : JSDate) (h : d.valid) :
    parseISODate (toISOString d) = some d := by
  obtain ⟨y, mo, da, ms⟩ := d
  simp only [JSDate.valid] at h
  obtain ⟨hy, hm1, hm2, hd1, hd2, hms⟩ := h
  have h24 : toISOString ⟨y, mo, da, ms⟩ =
      ⟨[d1 (y / 1000), d1 (y / 100), d1 (y / 10), d1 y, '-',
        d1 (mo / 10), d1 mo, '-', d1 (da / 10), d1 da, 'T',
        d1 (ms / 3600000 / 10), d1 (ms / 3600000), ':',
        d1 (ms % 3600000 / 60000 / 10), d1 (ms % 3600000 / 60000), ':',
        d1 (ms % 60000 / 1000 / 10), d1 (ms % 60000 / 1000), '.',
        d1 (ms % 1000 / 100), d1 (ms % 1000 / 10), d1 (ms % 1000), 'Z']⟩ :=
    rfl
  rw [h24, parseISODate_cons]
  simp only [digitVal_d1, Option.some.injEq, JSDate.mk.injEq]
  refine ⟨by omega, by omega, by omega, by omega⟩

/-- Saving then loading one sprint reproduces it field by field. -/
theorem loadSprint_saveSprint (s : Sprint) (h1 : s.startDate.valid)
    (h2 : s.endDate.valid) : loadSprint (saveSprint s) = some s := by
  simp only [loadSprint, saveSprint]
  rw [parseISODate_toISOString _ h1, parseISODate_toISOString _ h2]
  rfl

theorem mapM_load_save : ∀ l : List Sprint,
    (∀ s ∈ l, s.startDate.valid ∧ s.endDate.valid) →
    (l.map saveSprint).mapM loadSprint = some l := by
  intro l
  induction l with
  | nil => intro _; rfl
  | cons a t ih =>
    intro h
    have ha := h a (by simp)
    rw [List.map_cons, List.mapM_cons, loadSprint_saveSprint a ha.1 ha.2,
      ih (fun s hs => h s (by simp [hs]))]
    rfl

/-- C2: for every store state whose dates are canonical instants of the
modelled range — 0, 1 or many sprints, overlapping ranges and missing
descriptions included — the load effect applied to the save effect's
envelope reproduces every sprint field by field (dates equal exactly, so in
particular at day granularity) and the same color cursor. -/
theorem deserialize_serialize (sprints : List Sprint) (colorIndex : Nat)
    (h : ∀ s ∈ sprints, s.startDate.valid ∧ s.endDate.valid) :
    loadData (saveData sprints colorIndex) = some (sprints, colorIndex) := by
  simp only [loadData, saveData]
  rw [mapM_load_save sprints h]
  rfl

/-- Closed instance of `deserialize_serialize`: the two overlapping sprints
(one without a description) and cursor 5 round-trip. -/
theorem deserialize_serialize_witness :
    loadData (saveData [sprintA, sprintB] 5) = some ([sprintA, sprintB], 5) :=
  deserialize_serialize [sprintA, sprintB] 5 (by decide)

end SprintPlanner
